import Mathlib

/-!
Verification of the chart-image extraction and registry-remapping pipeline
(`src/modules/replication/dockerimage-replication/get-list-of-eks-images.py`).

The script is embedded shallowly: Python dictionaries become ordered
association lists, Python string values that may be `None` become
`Option String`, Python exceptions become an explicit `Except PyErr` result,
and the two output files become the value returned on success.  Helper
functions of the `helmparser` package that are not part of the source tree
(`parser.parse_value`, `parser.add_branch_to_dict`, `utils.deep_merge`) are
modelled from the specification and carry a doc comment saying so.
-/

set_option autoImplicit false

deriving instance DecidableEq for Except

namespace EksImages

/-- Python truthiness of a value that is either `None` or a string:
`None` and the empty string are falsy. -/
def pyTruthy : Option String → Bool
  | none => false
  | some s => s != ""

/-- Python f-string rendering of a value that is either `None` or a string:
`None` prints as the four characters `None`. -/
def pyFormat : Option String → String
  | none => "None"
  | some s => s

/-- Lookup in an ordered association list (Python `d.get(k)` / `k in d`). -/
def alookup {α : Type} (l : List (String × α)) (k : String) : Option α :=
  (l.find? (fun p => p.1 == k)).map Prod.snd

/-- Python `d[k] = v` on an ordered dictionary: an existing key keeps its
position and is overwritten, a new key is appended at the end. -/
def aset {α : Type} (l : List (String × α)) (k : String) (v : α) : List (String × α) :=
  if (l.find? (fun p => p.1 == k)).isSome then
    l.map (fun p => if p.1 == k then (k, v) else p)
  else
    l ++ [(k, v)]

/-- Python `del d[k]` on an ordered dictionary (the key is assumed present
by callers; deleting an absent key would simply do nothing here). -/
def adel {α : Type} (l : List (String × α)) (k : String) : List (String × α) :=
  l.filter (fun p => p.1 != k)

/-- Python exceptions that the embedded pipeline can raise. -/
inductive PyErr : Type where
  | keyError (k : String)
  | typeError
  | attributeError
deriving DecidableEq

/-- Python `s.split(sep)` on character lists: splits at every occurrence of
`sep`; the empty input yields one empty chunk, like Python. -/
def pySplit (sep : Char) : List Char → List (List Char)
  | [] => [[]]
  | c :: cs =>
    match pySplit sep cs with
    | [] => [[]]
    | g :: gs => if c = sep then [] :: g :: gs else (c :: g) :: gs

/-- Python `s.rstrip(c)` on character lists: drops every trailing `c`. -/
def pyRstrip (c : Char) (l : List Char) : List Char :=
  (l.reverse.dropWhile (fun x => x == c)).reverse

/-- First path segment of the image part, as the source computes it:
`image.rstrip('/').split('/')[0]` (line 179-180). -/
def first_seg (image : List Char) : List Char :=
  (pySplit '/' (pyRstrip '/' image)).headD []

/-- Remaining path after the first segment, as the source computes it:
`"/".join(image.rstrip('/').split('/')[1:])` (line 181). -/
def rest_path (image : List Char) : List Char :=
  List.intercalate ['/'] (pySplit '/' (pyRstrip '/' image)).tail

/-- Body of `process_image` after the image/tag split (lines 178-187 of the
source): the branch on a dot anywhere in the image part, the mirror-table
lookup of the first path segment, and the `default` fallback. -/
def rewrite_with (image tag : List Char) (m : List (String × String))
    (full_image : List Char) : List Char :=
  if '.' ∈ image then
    match alookup m (first_seg image).asString with
    | some v => v.toList ++ '/' :: rest_path image ++ ':' :: tag
    | none => full_image
  else
    if pyTruthy (alookup m "default") then
      ((alookup m "default").getD "").toList ++ '/' :: image ++ ':' :: tag
    else full_image

/-- Embeds `process_image` (lines 172-187 of the source) on character lists:
an empty mapping table returns the input unchanged; otherwise the input is
split with `split(":")`, the image part is chunk 0 and the tag is chunk 1
when it exists (`"latest"` otherwise), and `rewrite_with` is applied. -/
def process_image_chars (full_image : List Char) (m : List (String × String)) :
    List Char :=
  if m.isEmpty then full_image
  else
    let i_t := pySplit ':' full_image
    let image := i_t.headD []
    let tag :=
      match i_t with
      | _ :: t :: _ => t
      | _ => "latest".toList
    rewrite_with image tag m full_image

/-- String-level wrapper of `process_image_chars`. -/
def process_image (full_image : String) (m : List (String × String)) : String :=
  (process_image_chars full_image.toList m).asString

/-- RegistryRewriter.rewrite as the specification words it (section 4.3),
for comparison with the source `process_image`: split image and tag on the
LAST colon (default tag `latest`), detect an explicit registry by a dot in
the FIRST path segment, replace a hit, apply `default` when the first
segment has no dot, otherwise return the input unchanged. -/
def rewrite_spec (raw : String) (m : List (String × String)) : String :=
  let cs := raw.toList
  let parts := pySplit ':' cs
  let image := if parts.length ≥ 2 then List.intercalate [':'] parts.dropLast else cs
  let tag := if parts.length ≥ 2 then parts.getLastD [] else "latest".toList
  let segs := pySplit '/' image
  let firstSeg := segs.headD []
  if '.' ∈ firstSeg then
    match alookup m firstSeg.asString with
    | some v => (v.toList ++ '/' :: List.intercalate ['/'] segs.tail ++ ':' :: tag).asString
    | none => raw
  else
    match alookup m "default" with
    | some d => (d.toList ++ '/' :: image ++ ':' :: tag).asString
    | none => raw

/-- A field binding of an image spec: the value-tree path it refers to, and
the optional literal `name` override that only the repository role honours
(line 118 of the source). -/
structure Binding : Type where
  path : String
  name : Option String
deriving DecidableEq

/-- Modelled from the spec: `helmparser.parser.parse_value` is not under
`src/`; per section 4.1 of the spec, reading a missing path yields NotFound
(None here), otherwise the value stored at the referenced path of the
fetched chart values.  The chart values are carried as a flat map from the
path expression to the string stored there. -/
def parse_value (resolved : List (String × String)) (b : Binding) : Option String :=
  alookup resolved b.path

/-- Modelled from the spec: `helmparser.parser.add_branch_to_dict` is not
under `src/`; per section 4.1 of the spec it writes the value at the
binding path, creating the leaf when absent and overwriting it otherwise.
The override tree is carried as a flat map keyed by the full path. -/
def add_branch_to_dict (vals : List (String × Option String)) (b : Binding)
    (v : Option String) : List (String × Option String) :=
  aset vals b.path v

/-- Registry pass over one image spec (lines 101-113 of the source): each
`registry` item is resolved; a truthy result writes the override with the
destination prefix applied; the last `registry` item seen is remembered. -/
def registryPass (pfx : String) (resolved : List (String × String))
    (vals0 : List (String × Option String)) (items : List (String × Binding)) :
    List (String × Option String) × Option String :=
  items.foldl
    (fun st kv =>
      if kv.1 == "registry" then
        let r := parse_value resolved kv.2
        (if pyTruthy r then add_branch_to_dict st.1 kv.2 (some (pfx ++ pyFormat r))
         else st.1, r)
      else st)
    (vals0, none)

/-- Repository and tag pass over one image spec (lines 115-145 of the
source): a `repository` item with a literal `name` is taken verbatim and
writes nothing; otherwise the resolved repository is written, prefixed
exactly when the registry pass produced a falsy registry; every `tag` item
writes its resolved value unconditionally. -/
def repoTagPass (pfx : String) (resolved : List (String × String))
    (registry : Option String) (vals0 : List (String × Option String))
    (items : List (String × Binding)) :
    List (String × Option String) × Option String × Option String :=
  items.foldl
    (fun st kv =>
      if kv.1 == "repository" then
        match kv.2.name with
        | some n => (st.1, some n, st.2.2)
        | none =>
          let rep := parse_value resolved kv.2
          let ricv := if pyTruthy registry then rep else some (pfx ++ pyFormat rep)
          (add_branch_to_dict st.1 kv.2 ricv, rep, st.2.2)
      else if kv.1 == "tag" then
        let t := parse_value resolved kv.2
        (add_branch_to_dict st.1 kv.2 t, st.2.1, t)
      else st)
    (vals0, none, none)

/-- Remove pass over one image spec (lines 147-156 of the source): every
`remove` item writes the empty string at its path. -/
def removePass (vals0 : List (String × Option String))
    (items : List (String × Binding)) : List (String × Option String) :=
  items.foldl
    (fun vals kv =>
      if kv.1 == "remove" then add_branch_to_dict vals kv.2 (some "") else vals)
    vals0

/-- Coordinate assembly (lines 158-162 of the source): start from the
repository, prepend the registry when truthy via an f-string (None renders
as the text `None`), and append the tag when truthy; appending a tag to a
`None` image raises Python TypeError. -/
def assembleImage (registry repository tag : Option String) :
    Except PyErr (Option String) :=
  let image := repository
  let image :=
    if pyTruthy registry then some (pyFormat registry ++ "/" ++ pyFormat repository)
    else image
  if pyTruthy tag then
    match image with
    | none => .error .typeError
    | some im => .ok (some (im ++ ":" ++ pyFormat tag))
  else .ok image

/-- One image spec processed end to end: the three role passes followed by
coordinate assembly (lines 96-165 of the source).  Returns the updated
override map and the coordinate appended to the raw image list (which is
Python `None` when no repository was assembled). -/
def processOneImage (pfx : String) (resolved : List (String × String))
    (vals0 : List (String × Option String)) (image_data : List (String × Binding)) :
    Except PyErr (List (String × Option String) × Option String) :=
  let p1 := registryPass pfx resolved vals0 image_data
  let p2 := repoTagPass pfx resolved p1.2 p1.1 image_data
  let vals3 := removePass p2.1 image_data
  (assembleImage p1.2 p2.2.1 p2.2.2).map (fun img => (vals3, img))

/-- The image loop of one workload (`for image_name, image_data in
values["images"].items()`, lines 96-165): overrides accumulate across the
image specs and every assembled coordinate is appended, unconditionally, to
the raw image list. -/
def processImages (pfx : String) (resolved : List (String × String))
    (vals : List (String × Option String)) :
    List (String × List (String × Binding)) →
    Except PyErr (List (String × Option String) × List (Option String))
  | [] => .ok (vals, [])
  | i :: is => do
    let r ← processOneImage pfx resolved vals i.2
    let rest ← processImages pfx resolved r.1 is
    .ok (rest.1, r.2 :: rest.2)

/-- One workload declaration of the version catalog (the fields of
`workloads_data[workload]` that the script reads). -/
structure WorkloadSpec : Type where
  name : String
  repository : String
  version : String
  images : Option (List (String × List (String × Binding)))
deriving DecidableEq

/-- The `helm` block of one workload in the output document. -/
structure HelmBlock : Type where
  name : String
  repository : String
  version : String
  srcRepository : Option String
deriving DecidableEq

/-- One workload entry of the output `charts` document. -/
structure WorkloadOut : Type where
  helm : HelmBlock
  values : List (String × Option String)
deriving DecidableEq

/-- Python `repository.rstrip('/').split('/')[-1]` (line 88 of the source). -/
def lastSegment (s : String) : String :=
  ((pySplit '/' (pyRstrip '/' s.toList)).getLastD []).asString

/-- The `helm` block construction (lines 78-89 of the source): always
`name`, `repository` and `version` from the catalog; when chart replication
is requested, `srcRepository` keeps the original repository and
`repository` is rewritten to an OCI path under the destination prefix. -/
def mkHelmBlock (pfx : String) (replicate_charts : Bool) (ws : WorkloadSpec) :
    HelmBlock :=
  if replicate_charts then
    { name := ws.name
      repository := "oci://" ++ pfx ++ lastSegment ws.repository ++ "/" ++ ws.name
      version := ws.version
      srcRepository := some ws.repository }
  else
    { name := ws.name
      repository := ws.repository
      version := ws.version
      srcRepository := none }

/-- One iteration of the workload loop (lines 77-165 of the source): every
workload gets a helm block and an (initially empty) values tree; only a
workload with an `images` key runs the extraction loop. -/
def processWorkload (pfx : String) (replicate_charts : Bool)
    (resolved : List (String × String)) (ws : WorkloadSpec) :
    Except PyErr (WorkloadOut × List (Option String)) :=
  match ws.images with
  | none => .ok ({ helm := mkHelmBlock pfx replicate_charts ws, values := [] }, [])
  | some imgs =>
    (processImages pfx resolved [] imgs).map
      (fun r => ({ helm := mkHelmBlock pfx replicate_charts ws, values := r.1 }, r.2))

/-- The whole workload loop: builds the ordered `charts` map and the
chart-derived portion of `images_wip`, in catalog order.  `resolvedFor`
stands for the externally fetched chart values of each workload
(`helm.show`, lines 59-75, an external collaborator). -/
def buildCharts (pfx : String) (replicate_charts : Bool)
    (resolvedFor : String → List (String × String)) :
    List (String × WorkloadSpec) →
    Except PyErr (List (String × WorkloadOut) × List (Option String))
  | [] => .ok ([], [])
  | w :: wsRest => do
    let r ← processWorkload pfx replicate_charts (resolvedFor w.1) w.2
    let rest ← buildCharts pfx replicate_charts resolvedFor wsRest
    .ok ((w.1, r.1) :: rest.1, r.2 ++ rest.2)

/-- Code-point lexicographic comparison of character lists, the order
Python `sorted` uses on strings. -/
def charListLe : List Char → List Char → Bool
  | [], _ => true
  | _ :: _, [] => false
  | a :: as, b :: bs =>
    if a.toNat < b.toNat then true
    else if b.toNat < a.toNat then false
    else charListLe as bs

/-- Code-point lexicographic comparison of strings. -/
def strLe (a b : String) : Bool :=
  charListLe a.toList b.toList

/-- Insertion of a string into an already sorted list, keeping it sorted. -/
def insertSorted (x : String) : List String → List String
  | [] => [x]
  | y :: ys => if strLe x y then x :: y :: ys else y :: insertSorted x ys

/-- Lexicographically ascending insertion sort. -/
def sortStrings (l : List String) : List String :=
  l.foldr insertSorted []

/-- Embeds `sorted(set(images_wip))` (line 169 of the source).  The value
is assigned to `sorted_images` but never used afterwards; its only
observable effect is the Python TypeError raised when the set mixes `None`
with strings (comparison of `None` with `str` is unsupported). -/
def pySortedSet (images : List (Option String)) :
    Except PyErr (List (Option String)) :=
  if images.contains none then
    if images.any (fun o => o.isSome) then .error .typeError
    else if images.isEmpty then .ok [] else .ok [none]
  else .ok ((sortStrings (images.filterMap id).dedup).map some)

/-- Applying `process_image` to one element of `images_wip` (lines 189-194
of the source): the element may be Python `None`; with an empty mapping
table `process_image` returns it untouched, otherwise `None.split`
raises AttributeError. -/
def processImagePy (img : Option String) (m : List (String × String)) :
    Except PyErr (Option String) :=
  if m.isEmpty then .ok img
  else
    match img with
    | none => .error .attributeError
    | some s => .ok (some (process_image s m))

/-- One `src`/`target` entry of `updated_images.json`. -/
structure ImageMapping : Type where
  src : Option String
  target : String
deriving DecidableEq

/-- The merged content of `replication-result.json`: the three top-level
trees merged by `deep_merge` (modelled from the spec, `helmparser.utils`
is not under `src/`; the three trees have the disjoint top-level keys
`ami`, `charts` and `additional_images`, so the merge is their union). -/
structure ReplicationResult : Type where
  amiVersion : String
  charts : List (String × WorkloadOut)
  additional_images : List (String × String)
deriving DecidableEq

/-- The cert-manager post-processing rule (lines 200-207 of the source):
`if custom_chart_values['cert_manager']['values']['appVersion']: del ...`
inside a try/except that logs and re-raises.  A missing workload or key
raises KeyError; a truthy value is deleted; a falsy value is kept. -/
def certManagerRule (charts : List (String × WorkloadOut)) :
    Except PyErr (List (String × WorkloadOut)) :=
  match alookup charts "cert_manager" with
  | none => .error (.keyError "cert_manager")
  | some e =>
    match alookup e.values "appVersion" with
    | none => .error (.keyError "appVersion")
    | some v =>
      if pyTruthy v then
        .ok (aset charts "cert_manager" { e with values := adel e.values "appVersion" })
      else .ok charts

/-- The whole `main` handler (lines 21-221 of the source), with the
external collaborators supplied as inputs: the parsed version catalog
(`additional_images`, `docker_mappings`, `workloads_data`, the AMI
version) and the fetched chart values of each workload (`resolvedFor`).
On success it returns the content of the two output files,
`replication-result.json` and `updated_images.json`; any Python exception
aborts the run before either file is written. -/
def mainEmbed (pfx : String) (replicate_charts : Bool) (ami_version : String)
    (additional_images : List (String × String))
    (docker_mappings : List (String × String))
    (workloads_data : List (String × WorkloadSpec))
    (resolvedFor : String → List (String × String)) :
    Except PyErr (ReplicationResult × List ImageMapping) := do
  let images_wip0 := additional_images.map (fun p => some p.2)
  let updated_additional_images := additional_images.map (fun p => (p.1, pfx ++ p.2))
  let built ← buildCharts pfx replicate_charts resolvedFor workloads_data
  let images_wip := images_wip0 ++ built.2
  let _sorted_images ← pySortedSet images_wip
  let updFromAdditional ← additional_images.mapM
    (fun p => (processImagePy (some p.2) docker_mappings).map
      (fun w => ImageMapping.mk w (pfx ++ p.2)))
  let updFromWip ← images_wip.mapM
    (fun oimg => (processImagePy oimg docker_mappings).map
      (fun w => ImageMapping.mk w (pfx ++ pyFormat oimg)))
  let charts ← certManagerRule built.1
  .ok ({ amiVersion := ami_version
         charts := charts
         additional_images := updated_additional_images },
       updFromAdditional ++ updFromWip)

theorem pySplit_cons (sep c : Char) (cs : List Char) :
    pySplit sep (c :: cs)
      = match pySplit sep cs with
        | [] => [[]]
        | g :: gs => if c = sep then [] :: g :: gs else (c :: g) :: gs := rfl

theorem pySplit_ne_nil (sep : Char) : ∀ l : List Char, pySplit sep l ≠ []
  | [] => by simp [pySplit]
  | c :: cs => by
    unfold pySplit
    cases h : pySplit sep cs with
    | nil => simp
    | cons g gs =>
      dsimp
      split <;> simp

theorem pySplit_of_not_mem (sep : Char) {l : List Char} (h : sep ∉ l) :
    pySplit sep l = [l] := by
  induction l with
  | nil => rfl
  | cons c cs ih =>
    rw [List.mem_cons, not_or] at h
    unfold pySplit
    rw [ih h.2]
    dsimp
    rw [if_neg (fun hc => h.1 hc.symm)]

theorem pySplit_append (sep : Char) {pre : List Char} (rest : List Char)
    (h : sep ∉ pre) :
    pySplit sep (pre ++ sep :: rest) = pre :: pySplit sep rest := by
  induction pre with
  | nil =>
    rw [List.nil_append, pySplit_cons]
    cases hr : pySplit sep rest with
    | nil => exact absurd hr (pySplit_ne_nil sep rest)
    | cons g gs =>
      dsimp
      rw [if_pos rfl]
  | cons c cs ih =>
    rw [List.mem_cons, not_or] at h
    rw [List.cons_append, pySplit_cons, ih h.2]
    dsimp
    rw [if_neg (fun hc => h.1 hc.symm)]

/-- Claim C3 counterexample: on an image whose registry carries a port and
which also has a tag, the source `process_image` does NOT split at the last
colon — it takes everything before the first colon as the image and the
chunk between the first two colons as the tag, so the mirror entry for
`my.reg.io:5000` never matches and the input is returned unchanged, while
the split the spec describes (`rewrite_spec`) rewrites it. -/
theorem claim_C3_counterexample :
    process_image "my.reg.io:5000/foo:v1" [("my.reg.io:5000", "mirror.local")]
        = "my.reg.io:5000/foo:v1" ∧
    rewrite_spec "my.reg.io:5000/foo:v1" [("my.reg.io:5000", "mirror.local")]
        = "mirror.local/foo:v1" ∧
    process_image "my.reg.io:5000/foo:v1" [("my.reg.io:5000", "mirror.local")]
        ≠ rewrite_spec "my.reg.io:5000/foo:v1" [("my.reg.io:5000", "mirror.local")] := by
  refine ⟨by decide, by decide, by decide⟩

/-- Claim C3 (amended): `process_image` splits the raw image at the FIRST
colon — the image part is everything before the first colon, the tag is the
chunk between the first and the second colon (anything after a second colon
is discarded) — and the tag defaults to `latest` when the string has no
colon at all. -/
theorem claim_C3_amended (image tag rest : List Char) (m : List (String × String))
    (hm : m ≠ []) (h1 : ':' ∉ image) (h2 : ':' ∉ tag) :
    process_image_chars (image ++ ':' :: (tag ++ ':' :: rest)) m
        = rewrite_with image tag m (image ++ ':' :: (tag ++ ':' :: rest)) ∧
    process_image_chars (image ++ ':' :: tag) m
        = rewrite_with image tag m (image ++ ':' :: tag) ∧
    process_image_chars image m = rewrite_with image "latest".toList m image := by
  have hm' : m.isEmpty = false := by
    cases m with
    | nil => exact absurd rfl hm
    | cons a l => rfl
  have hif : ¬ (false = true) := by decide
  refine ⟨?_, ?_, ?_⟩
  · unfold process_image_chars
    rw [hm', if_neg hif]
    rw [pySplit_append ':' (tag ++ ':' :: rest) h1, pySplit_append ':' rest h2]
    rfl
  · unfold process_image_chars
    rw [hm', if_neg hif]
    rw [pySplit_append ':' tag h1, pySplit_of_not_mem ':' h2]
    rfl
  · unfold process_image_chars
    rw [hm', if_neg hif]
    rw [pySplit_of_not_mem ':' h1]
    rfl

/-- Claim C3 amended, witness at a concrete input. -/
theorem claim_C3_amended_witness :
    process_image_chars ("a.b".toList ++ ':' :: "c".toList ++ ':' :: "d".toList)
        [("a.b", "m")]
      = rewrite_with "a.b".toList "c".toList [("a.b", "m")]
          ("a.b".toList ++ ':' :: "c".toList ++ ':' :: "d".toList) :=
  (claim_C3_amended "a.b".toList "c".toList "d".toList [("a.b", "m")]
    (by decide) (by decide) (by decide)).1

/-- Claim C4 counterexample: the source decides the registry branch by a
dot ANYWHERE in the image part, not by a dot in the first path segment.
For `foo/bar.baz:v1` the first segment `foo` has no dot and the table has a
`default` entry, so the claim requires the default mirror to be applied,
but the source enters the dotted branch, misses the lookup of `foo`, and
returns the input unchanged. -/
theorem claim_C4_counterexample :
    process_image "foo/bar.baz:v1" [("default", "mirror.local")]
        = "foo/bar.baz:v1" ∧
    rewrite_spec "foo/bar.baz:v1" [("default", "mirror.local")]
        = "mirror.local/foo/bar.baz:v1" ∧
    process_image "foo/bar.baz:v1" [("default", "mirror.local")]
        ≠ rewrite_spec "foo/bar.baz:v1" [("default", "mirror.local")] := by
  refine ⟨by decide, by decide, by decide⟩

/-- Claim C4 (amended): after the split, the registry branch is chosen by a
dot ANYWHERE in the image part.  On that branch the FIRST path segment is
looked up in the mirror table: a hit replaces it by the mirror value, keeps
the remaining path and appends the tag; a miss returns the raw image
unchanged even when a `default` entry exists.  Only an image with no dot at
all uses a truthy `default` entry as prefix, and every other case returns
the raw image unchanged. -/
theorem claim_C4_amended (image tag full : List Char) (m : List (String × String)) :
    (('.' ∈ image) → ∀ v, alookup m (first_seg image).asString = some v →
        rewrite_with image tag m full
          = v.toList ++ '/' :: rest_path image ++ ':' :: tag) ∧
    (('.' ∈ image) → alookup m (first_seg image).asString = none →
        rewrite_with image tag m full = full) ∧
    (('.' ∉ image) → ∀ d, alookup m "default" = some d → d ≠ "" →
        rewrite_with image tag m full = d.toList ++ '/' :: image ++ ':' :: tag) ∧
    (('.' ∉ image) → pyTruthy (alookup m "default") = false →
        rewrite_with image tag m full = full) := by
  refine ⟨?_, ?_, ?_, ?_⟩
  · intro hdot v hv
    unfold rewrite_with
    rw [if_pos hdot, hv]
  · intro hdot hv
    unfold rewrite_with
    rw [if_pos hdot, hv]
  · intro hdot d hd hne
    unfold rewrite_with
    rw [if_neg hdot, hd]
    simp [pyTruthy, hne]
  · intro hdot hfalse
    unfold rewrite_with
    rw [if_neg hdot, hfalse]
    simp

/-- Claim C4 amended, witness at concrete inputs: a dotted first segment
with a table hit is replaced, and a dot-free image with a default entry is
prefixed. -/
theorem claim_C4_amended_witness :
    rewrite_with "a.b/c".toList "v1".toList [("a.b", "m.l")] "x".toList
        = "m.l/c:v1".toList ∧
    rewrite_with "foo".toList "v1".toList [("default", "d.l")] "x".toList
        = "d.l/foo:v1".toList := by
  constructor
  · have h := (claim_C4_amended "a.b/c".toList "v1".toList "x".toList
      [("a.b", "m.l")]).1 (by decide) "m.l" (by decide)
    rw [h]
    decide
  · have h := (claim_C4_amended "foo".toList "v1".toList "x".toList
      [("default", "d.l")]).2.2.1 (by decide) "d.l" (by decide) (by decide)
    rw [h]
    decide

theorem pyTruthy_none : pyTruthy none = false := rfl

theorem pyTruthy_some (s : String) : pyTruthy (some s) = (s != "") := rfl

theorem pyFormat_none : pyFormat none = "None" := rfl

theorem pyFormat_some (s : String) : pyFormat (some s) = s := rfl

theorem foldl_skip {α β : Type} (f : α → β → α) (x : β) (h : ∀ st, f st x = st)
    (l1 l2 : List β) (init : α) :
    List.foldl f init (l1 ++ x :: l2) = List.foldl f init (l1 ++ l2) := by
  simp [List.foldl_append, List.foldl_cons, h]

theorem registryPass_skip (pfx : String) (resolved : List (String × String))
    (vals0 : List (String × Option String)) (l1 l2 : List (String × Binding))
    (k : String) (b : Binding) (hk : k ≠ "registry") :
    registryPass pfx resolved vals0 (l1 ++ (k, b) :: l2)
      = registryPass pfx resolved vals0 (l1 ++ l2) := by
  unfold registryPass
  exact foldl_skip _ (k, b) (fun st => by simp [hk]) l1 l2 (vals0, none)

theorem repoTagPass_skip (pfx : String) (resolved : List (String × String))
    (registry : Option String) (vals0 : List (String × Option String))
    (l1 l2 : List (String × Binding)) (k : String) (b : Binding)
    (hk1 : k ≠ "repository") (hk2 : k ≠ "tag") :
    repoTagPass pfx resolved registry vals0 (l1 ++ (k, b) :: l2)
      = repoTagPass pfx resolved registry vals0 (l1 ++ l2) := by
  unfold repoTagPass
  exact foldl_skip _ (k, b) (fun st => by simp [hk1, hk2]) l1 l2 (vals0, none, none)

theorem removePass_skip (vals0 : List (String × Option String))
    (l1 l2 : List (String × Binding)) (k : String) (b : Binding)
    (hk : k ≠ "remove") :
    removePass vals0 (l1 ++ (k, b) :: l2) = removePass vals0 (l1 ++ l2) := by
  unfold removePass
  exact foldl_skip _ (k, b) (fun st => by simp [hk]) l1 l2 vals0

/-- Claim C7 counterexample: an image spec carrying the unknown role
`bogus` is not a fatal configuration error — the run completes, the
remaining roles are processed normally, and both output documents are
produced. -/
theorem claim_C7_counterexample :
    mainEmbed "P/" false "v" [] []
      [("cert_manager",
        { name := "cm", repository := "r", version := "1",
          images := some
            [("i", [("bogus", ⟨"x", none⟩),
                    ("repository", ⟨"", some "app"⟩),
                    ("tag", ⟨"appVersion", none⟩)])] })]
      (fun _ => [("appVersion", "2")])
      = .ok ({ amiVersion := "v",
               charts := [("cert_manager", ⟨⟨"cm", "r", "1", none⟩, []⟩)],
               additional_images := [] },
             [⟨some "app:2", "P/app:2"⟩]) := by decide

/-- Claim C7 (amended): a role key outside registry, repository, tag and
remove is silently ignored by every pass of the extractor — removing the
item leaves the extraction of the image spec unchanged, so the run
continues and processes the remaining roles normally. -/
theorem claim_C7_amended (pfx : String) (resolved : List (String × String))
    (vals0 : List (String × Option String)) (items1 items2 : List (String × Binding))
    (k : String) (b : Binding) (hk1 : k ≠ "registry") (hk2 : k ≠ "repository")
    (hk3 : k ≠ "tag") (hk4 : k ≠ "remove") :
    processOneImage pfx resolved vals0 (items1 ++ (k, b) :: items2)
      = processOneImage pfx resolved vals0 (items1 ++ items2) := by
  unfold processOneImage
  simp only [registryPass_skip pfx resolved vals0 items1 items2 k b hk1]
  simp only [fun reg v0 => repoTagPass_skip pfx resolved reg v0 items1 items2 k b hk2 hk3]
  simp only [fun v0 => removePass_skip v0 items1 items2 k b hk4]

/-- Claim C7 amended, witness at a concrete input. -/
theorem claim_C7_amended_witness :
    processOneImage "P/" [] [] ([] ++ ("bogus", ⟨"x", none⟩) :: [("repository", ⟨"", some "app"⟩)])
      = processOneImage "P/" [] [] ([] ++ [("repository", ⟨"", some "app"⟩)]) :=
  claim_C7_amended "P/" [] [] [] [("repository", ⟨"", some "app"⟩)] "bogus" ⟨"x", none⟩
    (by decide) (by decide) (by decide) (by decide)

/-- Claim C5: in the repository pass the written override depends on the
registry pass — a truthy registry makes the repository override unprefixed
(and the registry override itself is written with the destination prefix),
a falsy registry makes the repository override carry the destination
prefix; the assembled coordinate is registry/repository in the first case
and the bare repository in the second. -/
theorem claim_C5 (pfx : String) (resolved : List (String × String)) (br bp : Binding)
    (hname : bp.name = none) (hpath : bp.path ≠ br.path) :
    (pyTruthy (parse_value resolved br) = true →
       processOneImage pfx resolved [] [("registry", br), ("repository", bp)]
         = .ok ([(br.path, some (pfx ++ pyFormat (parse_value resolved br))),
                 (bp.path, parse_value resolved bp)],
                some (pyFormat (parse_value resolved br) ++ "/"
                      ++ pyFormat (parse_value resolved bp)))) ∧
    (pyTruthy (parse_value resolved br) = false →
       processOneImage pfx resolved [] [("registry", br), ("repository", bp)]
         = .ok ([(bp.path, some (pfx ++ pyFormat (parse_value resolved bp)))],
                parse_value resolved bp)) := by
  have hpath' : ¬ (br.path = bp.path) := fun hc => hpath hc.symm
  constructor
  · intro h
    obtain ⟨s, hs, hne⟩ : ∃ s, parse_value resolved br = some s ∧ (s != "") = true := by
      cases hv : parse_value resolved br with
      | none =>
        rw [hv, pyTruthy_none] at h
        exact absurd h (by decide)
      | some s =>
        rw [hv, pyTruthy_some] at h
        exact ⟨s, rfl, h⟩
    simp [processOneImage, registryPass, repoTagPass, removePass, assembleImage,
      add_branch_to_dict, aset, hname, hs, hne, hpath', pyTruthy_some, pyTruthy_none,
      pyFormat_some, Except.map]
  · intro h
    simp [processOneImage, registryPass, repoTagPass, removePass, assembleImage,
      add_branch_to_dict, aset, hname, h, hpath', pyTruthy_none, Except.map]

/-- Claim C5 witness: the spec example — registry resolves to
`123.dkr.ecr.example.com`, repository resolves to `app`, destination
prefix `999.dkr.ecr.example.com/`: the registry override is prefixed, the
repository override is not, and the coordinate is
`123.dkr.ecr.example.com/app`. -/
theorem claim_C5_witness :
    processOneImage "999.dkr.ecr.example.com/"
      [("r", "123.dkr.ecr.example.com"), ("p", "app")] []
      [("registry", ⟨"r", none⟩), ("repository", ⟨"p", none⟩)]
      = .ok ([("r", some "999.dkr.ecr.example.com/123.dkr.ecr.example.com"),
              ("p", some "app")],
             some "123.dkr.ecr.example.com/app") :=
  (claim_C5 "999.dkr.ecr.example.com/"
    [("r", "123.dkr.ecr.example.com"), ("p", "app")] ⟨"r", none⟩ ⟨"p", none⟩
    rfl (by decide)).1 (by decide)

/-- Claim C2 counterexample: an image spec whose repository role does not
resolve still contributes to the raw image list (the Python value `None`
is appended), and the repository override is not omitted — it is written
as the destination prefix followed by the text `None`. -/
theorem claim_C2_counterexample :
    processImages "P/" [] [] [("img", [("repository", ⟨"p", none⟩)])]
      = .ok ([("p", some "P/None")], [none]) := by decide

/-- Claim C2 (amended): on a resolution miss the extractor omits only the
registry override; a missed repository write is written as the prefixed
text `None` and a missed tag writes a `None`-valued override, and in every
case a coordinate (Python `None`) is still appended to the raw image list
for the image. -/
theorem claim_C2_amended (pfx : String) (resolved : List (String × String))
    (iname : String) (bp br bt : Binding) (hbp : bp.name = none)
    (h1 : parse_value resolved bp = none) (h2 : parse_value resolved br = none)
    (h3 : parse_value resolved bt = none) :
    processImages pfx resolved [] [(iname, [("repository", bp)])]
      = .ok ([(bp.path, some (pfx ++ "None"))], [none]) ∧
    processImages pfx resolved [] [(iname, [("registry", br)])] = .ok ([], [none]) ∧
    processImages pfx resolved [] [(iname, [("tag", bt)])]
      = .ok ([(bt.path, none)], [none]) := by
  refine ⟨?_, ?_, ?_⟩
  · simp [processImages, processOneImage, registryPass, repoTagPass, removePass,
      assembleImage, add_branch_to_dict, aset, hbp, h1, pyTruthy_none, pyFormat_none,
      Except.map, Bind.bind, Except.bind]
  · simp [processImages, processOneImage, registryPass, repoTagPass, removePass,
      assembleImage, add_branch_to_dict, aset, h2, pyTruthy_none, Except.map,
      Bind.bind, Except.bind]
  · simp [processImages, processOneImage, registryPass, repoTagPass, removePass,
      assembleImage, add_branch_to_dict, aset, h3, pyTruthy_none, Except.map,
      Bind.bind, Except.bind]

/-- Claim C2 amended, witness at a concrete input. -/
theorem claim_C2_amended_witness :
    processImages "P/" [] [] [("img", [("repository", ⟨"q", none⟩)])]
      = .ok ([("q", some "P/None")], [none]) :=
  (claim_C2_amended "P/" [] "img" ⟨"q", none⟩ ⟨"q", none⟩ ⟨"q", none⟩
    rfl rfl rfl rfl).1

/-- Claim C1: at the failing input the emitted mapping list is NOT the
additional images followed by the deduplicated, sorted chart-derived list.
The source iterates the raw `images_wip` (which already begins with the
additional images, line 37) instead of the `sorted_images` computed on
line 169 and never used: with one additional image `img1` and chart images
`zz, zz, aa:1` the code emits five entries — the additional image twice and
the duplicate `zz` twice, unsorted — while the claim predicts
`1 + 3 = 4` entries (the second conjunct evaluates the dedup-sorted set
the claim refers to). -/
theorem claim_C1_divergence :
    mainEmbed "P/" false "1.30" [("extra", "img1")] []
      [("cert_manager",
        { name := "cm", repository := "https://charts.example/cm", version := "1",
          images := some
            [("i1", [("repository", ⟨"", some "zz"⟩)]),
             ("i2", [("repository", ⟨"", some "zz"⟩)]),
             ("i3", [("repository", ⟨"", some "aa"⟩), ("tag", ⟨"appVersion", none⟩)])] })]
      (fun _ => [("appVersion", "1")])
      = .ok ({ amiVersion := "1.30",
               charts := [("cert_manager",
                 ⟨⟨"cm", "https://charts.example/cm", "1", none⟩, []⟩)],
               additional_images := [("extra", "P/img1")] },
             [⟨some "img1", "P/img1"⟩, ⟨some "img1", "P/img1"⟩, ⟨some "zz", "P/zz"⟩,
              ⟨some "zz", "P/zz"⟩, ⟨some "aa:1", "P/aa:1"⟩]) ∧
    (pySortedSet [some "img1", some "zz", some "zz", some "aa:1"]).map List.length
      = .ok 3 :=
  ⟨by decide, by decide⟩

/-- Claim C6 counterexample: the `appVersion` override of the cert-manager
workload is present but bound to the falsy empty string (the value a
remove-role binding writes); the rule neither removes it nor raises — the
claim says a present override is removed. -/
theorem claim_C6_counterexample :
    certManagerRule
        [("cert_manager", ⟨⟨"cm", "r", "1", none⟩, [("appVersion", some "")]⟩)]
      = .ok [("cert_manager", ⟨⟨"cm", "r", "1", none⟩, [("appVersion", some "")]⟩)] := by
  decide

/-- Claim C6 (amended): the cert-management rule removes the cert_manager
workload's `appVersion` override exactly when it is present with a truthy
value; a present falsy value is silently retained; an absent workload or an
absent key raises a fatal KeyError, and on the empty catalog the whole run
aborts with that error, so no output document is produced. -/
theorem claim_C6_amended (charts : List (String × WorkloadOut)) :
    (∀ e v, alookup charts "cert_manager" = some e →
       alookup e.values "appVersion" = some v → pyTruthy v = true →
       certManagerRule charts
         = .ok (aset charts "cert_manager"
             { e with values := adel e.values "appVersion" })) ∧
    (alookup charts "cert_manager" = none →
       certManagerRule charts = .error (.keyError "cert_manager")) ∧
    (∀ e, alookup charts "cert_manager" = some e →
       alookup e.values "appVersion" = none →
       certManagerRule charts = .error (.keyError "appVersion")) ∧
    mainEmbed "P/" false "v" [] [] [] (fun _ => [])
      = .error (.keyError "cert_manager") := by
  refine ⟨?_, ?_, ?_, by decide⟩
  · intro e v h1 h2 h3
    simp [certManagerRule, h1, h2, h3]
  · intro h
    simp [certManagerRule, h]
  · intro e h1 h2
    simp [certManagerRule, h1, h2]

/-- Claim C6 amended, witness: a truthy `appVersion` override is removed. -/
theorem claim_C6_amended_witness :
    certManagerRule
        [("cert_manager", ⟨⟨"cm", "r", "1", none⟩, [("appVersion", some "2")]⟩)]
      = .ok (aset
          [("cert_manager", ⟨⟨"cm", "r", "1", none⟩, [("appVersion", some "2")]⟩)]
          "cert_manager"
          { (⟨⟨"cm", "r", "1", none⟩, [("appVersion", some "2")]⟩ : WorkloadOut) with
            values := adel [("appVersion", some "2")] "appVersion" }) :=
  (claim_C6_amended
    [("cert_manager", ⟨⟨"cm", "r", "1", none⟩, [("appVersion", some "2")]⟩)]).1
    ⟨⟨"cm", "r", "1", none⟩, [("appVersion", some "2")]⟩ (some "2")
    (by decide) (by decide) (by decide)

theorem processWorkload_helm (pfx : String) (repl : Bool)
    (resolved : List (String × String)) (ws : WorkloadSpec)
    (r : WorkloadOut × List (Option String))
    (h : processWorkload pfx repl resolved ws = .ok r) :
    r.1.helm = mkHelmBlock pfx repl ws := by
  unfold processWorkload at h
  cases him : ws.images with
  | none =>
    simp only [him] at h
    have := Except.ok.inj h
    rw [← this]
  | some imgs =>
    simp only [him] at h
    cases hp : processImages pfx resolved [] imgs with
    | error e =>
      rw [hp] at h
      simp [Except.map] at h
    | ok rr =>
      rw [hp] at h
      simp only [Except.map] at h
      have := Except.ok.inj h
      rw [← this]

theorem buildCharts_cons_ok (pfx : String) (repl : Bool)
    (rf : String → List (String × String)) (w : String) (ws : WorkloadSpec)
    (rest : List (String × WorkloadSpec)) (charts : List (String × WorkloadOut))
    (imgs : List (Option String))
    (h : buildCharts pfx repl rf ((w, ws) :: rest) = .ok (charts, imgs)) :
    ∃ r restC restI, processWorkload pfx repl (rf w) ws = .ok r ∧
      buildCharts pfx repl rf rest = .ok (restC, restI) ∧
      charts = (w, r.1) :: restC ∧ imgs = r.2 ++ restI := by
  unfold buildCharts at h
  cases hw : processWorkload pfx repl (rf w) ws with
  | error e =>
    rw [hw] at h
    simp [Bind.bind, Except.bind] at h
  | ok r =>
    rw [hw] at h
    cases hrest : buildCharts pfx repl rf rest with
    | error e =>
      rw [hrest] at h
      simp [Bind.bind, Except.bind] at h
    | ok rr =>
      rw [hrest] at h
      simp only [Bind.bind, Except.bind, Except.ok.injEq, Prod.mk.injEq] at h
      exact ⟨r, rr.1, rr.2, rfl, rfl, h.1.symm, h.2.symm⟩

/-- Claim C8: every workload declared in the catalog appears, in order,
in the built charts document, with a helm block built by `mkHelmBlock`
(name, repository, version from the catalog); a workload without an
`images` key contributes an empty values tree and no image coordinates,
yet its entry is still present. -/
theorem claim_C8 (pfx : String) (repl : Bool)
    (rf : String → List (String × String)) (wl : List (String × WorkloadSpec))
    (charts : List (String × WorkloadOut)) (imgs : List (Option String))
    (h : buildCharts pfx repl rf wl = .ok (charts, imgs)) :
    charts.map Prod.fst = wl.map Prod.fst ∧
    (∀ w ws, (w, ws) ∈ wl →
       ∃ e, (w, e) ∈ charts ∧ e.helm = mkHelmBlock pfx repl ws) ∧
    (∀ w ws, (w, ws) ∈ wl → ws.images = none →
       (w, { helm := mkHelmBlock pfx repl ws, values := [] }) ∈ charts) ∧
    (∀ w ws, ws.images = none →
       processWorkload pfx repl (rf w) ws
         = .ok ({ helm := mkHelmBlock pfx repl ws, values := [] }, [])) := by
  have hNone : ∀ w ws, ws.images = none →
      processWorkload pfx repl (rf w) ws
        = .ok ({ helm := mkHelmBlock pfx repl ws, values := [] }, []) := by
    intro w ws hws
    unfold processWorkload
    rw [hws]
  induction wl generalizing charts imgs with
  | nil =>
    unfold buildCharts at h
    simp only [Except.ok.injEq, Prod.mk.injEq] at h
    obtain ⟨h1, h2⟩ := h
    subst h1
    exact ⟨rfl, by simp, by simp, hNone⟩
  | cons p rest ih =>
    obtain ⟨w, ws⟩ := p
    obtain ⟨r, restC, restI, hw, hrest, hc, hi⟩ :=
      buildCharts_cons_ok pfx repl rf w ws rest charts imgs h
    obtain ⟨ih1, ih2, ih3, _⟩ := ih restC restI hrest
    subst hc
    refine ⟨?_, ?_, ?_, hNone⟩
    · simp [ih1]
    · intro w' ws' hmem
      rcases List.mem_cons.mp hmem with hEq | hmem'
      · obtain ⟨hw', hws'⟩ := Prod.mk.injEq .. ▸ hEq
        subst hw'
        subst hws'
        exact ⟨r.1, List.mem_cons_self _ _, processWorkload_helm pfx repl (rf w') ws' r hw⟩
      · obtain ⟨e, he, hh⟩ := ih2 w' ws' hmem'
        exact ⟨e, List.mem_cons_of_mem _ he, hh⟩
    · intro w' ws' hmem hnone
      rcases List.mem_cons.mp hmem with hEq | hmem'
      · obtain ⟨hw', hws'⟩ := Prod.mk.injEq .. ▸ hEq
        subst hw'
        subst hws'
        rw [hNone w' ws' hnone] at hw
        have hr := Except.ok.inj hw
        rw [← hr]
        exact List.mem_cons_self _ _
      · exact List.mem_cons_of_mem _ (ih3 w' ws' hmem' hnone)

/-- Claim C8 witness: a catalog with a single workload with no `images`
key still yields an entry with its helm block and empty values. -/
theorem claim_C8_witness :
    ("w1", ({ helm := mkHelmBlock "P/" false ⟨"n", "r", "v", none⟩, values := [] }
      : WorkloadOut))
      ∈ [("w1", (⟨⟨"n", "r", "v", none⟩, []⟩ : WorkloadOut))] :=
  (claim_C8 "P/" false (fun _ => []) [("w1", ⟨"n", "r", "v", none⟩)]
    [("w1", ⟨⟨"n", "r", "v", none⟩, []⟩)] [] (by decide)).2.2.1
    "w1" ⟨"n", "r", "v", none⟩ (by simp) rfl

/-- Claim C9: with the replicate-charts flag unset the helm block is
exactly name, repository and version from the catalog with no
srcRepository; with the flag set, srcRepository keeps the original
repository and repository becomes the OCI destination path built from the
destination prefix, the last path segment of the source repository URL and
the chart name; and the flag changes nothing but the helm block — erasing
the helm field makes the two runs of `processWorkload` identical. -/
theorem claim_C9 (pfx : String) (rv : List (String × String)) (ws : WorkloadSpec) :
    mkHelmBlock pfx false ws
      = { name := ws.name, repository := ws.repository, version := ws.version,
          srcRepository := none } ∧
    mkHelmBlock pfx true ws
      = { name := ws.name,
          repository := "oci://" ++ pfx ++ lastSegment ws.repository ++ "/" ++ ws.name,
          version := ws.version, srcRepository := some ws.repository } ∧
    ∀ r : HelmBlock,
      (processWorkload pfx true rv ws).map (fun p => ({ p.1 with helm := r }, p.2))
        = (processWorkload pfx false rv ws).map (fun p => ({ p.1 with helm := r }, p.2)) := by
  refine ⟨rfl, rfl, ?_⟩
  intro r
  unfold processWorkload
  cases him : ws.images with
  | none => simp [Except.map]
  | some imgs =>
    cases hp : processImages pfx rv [] imgs with
    | error e => simp [Except.map, hp]
    | ok rr => simp [Except.map, hp]

/-- Claim C10: when the cert_manager workload's values bind `appVersion`
to a falsy value (such as the empty string written by a remove-role
binding), the rule neither deletes the key nor raises, and at the concrete
catalog whose remove role writes the empty string the falsy override is
retained in the emitted manifest. -/
theorem claim_C10 (charts : List (String × WorkloadOut)) (e : WorkloadOut)
    (v : Option String) (h1 : alookup charts "cert_manager" = some e)
    (h2 : alookup e.values "appVersion" = some v) (h3 : pyTruthy v = false) :
    certManagerRule charts = .ok charts ∧
    mainEmbed "P/" false "v" [] []
      [("cert_manager",
        { name := "cm", repository := "r", version := "1",
          images := some [("i", [("remove", ⟨"appVersion", none⟩)])] })]
      (fun _ => [])
      = .ok ({ amiVersion := "v",
               charts := [("cert_manager",
                 ⟨⟨"cm", "r", "1", none⟩, [("appVersion", some "")]⟩)],
               additional_images := [] },
             [⟨none, "P/None"⟩]) := by
  refine ⟨?_, by decide⟩
  simp [certManagerRule, h1, h2, h3]

/-- Claim C10 witness: a `None`-valued `appVersion` override is falsy and
is retained without an error. -/
theorem claim_C10_witness :
    certManagerRule [("cert_manager", ⟨⟨"cm", "r", "1", none⟩, [("appVersion", none)]⟩)]
      = .ok [("cert_manager", ⟨⟨"cm", "r", "1", none⟩, [("appVersion", none)]⟩)] :=
  (claim_C10 [("cert_manager", ⟨⟨"cm", "r", "1", none⟩, [("appVersion", none)]⟩)]
    ⟨⟨"cm", "r", "1", none⟩, [("appVersion", none)]⟩ none
    (by decide) (by decide) (by decide)).1

end EksImages
